import Mathlib

/-!
Shallow embedding of the prismapilot query-builder library
(src/pagination.ts, src/search.ts, src/filters.ts, src/query-builder.ts).

JavaScript numbers are modelled by `JSNum` (an integer or NaN: every numeric
value the library manipulates is integer-valued, and NaN is kept because the
pagination helpers are specified over malformed numeric input).  JavaScript
values are modelled by `JVal`; plain objects are association lists in key
insertion order (`Obj`), with `jsSetKey` mirroring property assignment
(overwrite in place, append when new) and `jsSpread` mirroring `{...a, ...b}`.
`Date` objects are kept symbolic (`DateRep` records what the `Date`
constructor was applied to).
-/

/-- A JavaScript number: an integer value or NaN.  The library only ever
produces integer-valued numbers; NaN is representable because the pagination
calculators are specified on malformed input. -/
inductive JSNum where
  | nan : JSNum
  | int (v : Int) : JSNum
deriving DecidableEq, Repr

namespace JSNum

/-- `Math.max` on two numbers: NaN-propagating maximum. -/
def jsMax : JSNum → JSNum → JSNum
  | nan, _ => nan
  | _, nan => nan
  | int a, int b => int (max a b)

/-- `Math.min` on two numbers: NaN-propagating minimum. -/
def jsMin : JSNum → JSNum → JSNum
  | nan, _ => nan
  | _, nan => nan
  | int a, int b => int (min a b)

/-- JavaScript `+` on numbers (NaN-propagating). -/
def jsAdd : JSNum → JSNum → JSNum
  | nan, _ => nan
  | _, nan => nan
  | int a, int b => int (a + b)

/-- JavaScript `-` on numbers (NaN-propagating). -/
def jsSub : JSNum → JSNum → JSNum
  | nan, _ => nan
  | _, nan => nan
  | int a, int b => int (a - b)

/-- JavaScript `*` on numbers (NaN-propagating). -/
def jsMul : JSNum → JSNum → JSNum
  | nan, _ => nan
  | _, nan => nan
  | int a, int b => int (a * b)

/-- JavaScript `String()` applied to a number. -/
def toStr : JSNum → String
  | nan => "NaN"
  | int v => toString v

end JSNum

/-- Symbolic representation of a JavaScript `Date` object: it records the
argument the `Date` constructor was applied to.  (The library never inspects
a date's fields, so the timestamp itself need not be computed.) -/
inductive DateRep where
  | ofString (s : String) : DateRep
  | ofNum (n : JSNum) : DateRep
  | other : DateRep
deriving DecidableEq, Repr

/-- A JavaScript runtime value as manipulated by the library: `undefined`,
`null`, booleans, numbers, strings, `Date` objects, arrays, and plain objects
(association lists in key insertion order). -/
inductive JVal where
  | vUndefined : JVal
  | vNull : JVal
  | vBool (b : Bool) : JVal
  | vNum (n : JSNum) : JVal
  | vStr (s : String) : JVal
  | vDate (d : DateRep) : JVal
  | vArr (elems : List JVal) : JVal
  | vObj (fields : List (String × JVal)) : JVal

/-- A JavaScript plain object: fields in key insertion order. -/
abbrev Obj := List (String × JVal)

namespace JVal

/-- JavaScript truthiness: `undefined`, `null`, `false`, `0`, `NaN` and `""`
are falsy; every object (including `Date`), array, non-zero number and
non-empty string is truthy. -/
def jsTruthy : JVal → Bool
  | vUndefined => false
  | vNull => false
  | vBool b => b
  | vNum (.int v) => v != 0
  | vNum .nan => false
  | vStr s => s != ""
  | vDate _ => true
  | vArr _ => true
  | vObj _ => true

/-- The `new Date(x)` constructor, kept symbolic: a string or number argument
is recorded, an existing `Date` is copied, anything else is collapsed to
`DateRep.other`. -/
def jsNewDate : JVal → JVal
  | vStr s => vDate (.ofString s)
  | vNum n => vDate (.ofNum n)
  | vDate d => vDate d
  | _ => vDate .other

end JVal

open JVal JSNum

/-- Property read `o[k]` on a plain object, as an `Option` (`none` when the
key is absent). -/
def objGet : Obj → String → Option JVal
  | [], _ => none
  | (k', v) :: rest, k => if k' = k then some v else objGet rest k

/-- Property read `o[k]` on a plain object: an absent key reads as
`undefined`. -/
def objGetD (o : Obj) (k : String) : JVal :=
  (objGet o k).getD JVal.vUndefined

/-- The `in` operator: `k in o`. -/
def objHas (o : Obj) (k : String) : Bool :=
  (objGet o k).isSome

/-- Property assignment `o[k] = v`: overwrites the first occurrence of `k`
in place, otherwise appends (JavaScript objects keep the original insertion
position of an overwritten key). -/
def jsSetKey : Obj → String → JVal → Obj
  | [], k, v => [(k, v)]
  | (k', v') :: rest, k, v =>
    if k' = k then (k, v) :: rest else (k', v') :: jsSetKey rest k v

/-- The object spread `{...a, ...b}`: each field of `b` is assigned onto `a`
in order, later keys winning. -/
def jsSpread (a b : Obj) : Obj :=
  b.foldl (fun acc kv => jsSetKey acc kv.1 kv.2) a

/-- Property read on an arbitrary value, `x[k]`: objects look the key up,
anything else yields `undefined` (the library only indexes after a truthiness
guard, so the `null`/`undefined` throw is unreachable). -/
def jsIndex : JVal → String → JVal
  | JVal.vObj fields, k => objGetD fields k
  | _, _ => JVal.vUndefined

mutual

/-- JavaScript `String(x)`.  Dates are kept symbolic (the library never
compares a stringified date). -/
def jsToString : JVal → String
  | JVal.vUndefined => "undefined"
  | JVal.vNull => "null"
  | JVal.vBool b => if b then "true" else "false"
  | JVal.vNum n => n.toStr
  | JVal.vStr s => s
  | JVal.vDate _ => "[Date]"
  | JVal.vArr xs => String.intercalate "," (jsToStringArrElems xs)
  | JVal.vObj _ => "[object Object]"

/-- Elements of an array under `String()`: `null` and `undefined` render as
the empty string inside an array join. -/
def jsToStringArrElems : List JVal → List String
  | [] => []
  | JVal.vUndefined :: rest => "" :: jsToStringArrElems rest
  | JVal.vNull :: rest => "" :: jsToStringArrElems rest
  | x :: rest => jsToString x :: jsToStringArrElems rest

end

/-! ## src/pagination.ts -/

/-- `DEFAULT_LIMIT` from src/pagination.ts. -/
def DEFAULT_LIMIT : JSNum := .int 10

/-- `MAX_LIMIT` from src/pagination.ts. -/
def MAX_LIMIT : JSNum := .int 100

/-- Result of `getPagination`: `{take, skip}`. -/
structure PaginationResult where
  take : JSNum
  skip : JSNum
deriving DecidableEq, Repr

/-- `getPagination({page = 1, limit = DEFAULT_LIMIT})` from src/pagination.ts:
`take = Math.min(Math.max(1, limit), MAX_LIMIT)`,
`skip = (Math.max(1, page) - 1) * take`.  `none` models an absent
(`undefined`) property, which takes the destructuring default. -/
def getPagination (page limit : Option JSNum) : PaginationResult :=
  let page := page.getD (.int 1)
  let limit := limit.getD DEFAULT_LIMIT
  let safePage := jsMax (.int 1) page
  let take := jsMin (jsMax (.int 1) limit) MAX_LIMIT
  let skip := jsMul (jsSub safePage (.int 1)) take
  { take := take, skip := skip }

/-- `getCursorPagination({cursor, cursorField = "id", limit = DEFAULT_LIMIT})`
from src/pagination.ts: returns the object
`{take: clamped + 1, ...(cursor && {skip: 1, cursor: {[cursorField]: cursor}})}`.
The spread short-circuits on a falsy cursor, so an absent cursor and the empty
string both produce only the `take` field. -/
def getCursorPagination (cursor : Option String) (cursorField : String)
    (limit : Option JSNum) : Obj :=
  let limit := limit.getD DEFAULT_LIMIT
  let take := jsMin (jsMax (.int 1) limit) MAX_LIMIT
  [("take", JVal.vNum (jsAdd take (.int 1)))] ++
    (match cursor with
     | some c => if c ≠ "" then
         [("skip", JVal.vNum (.int 1)),
          ("cursor", JVal.vObj [(cursorField, JVal.vStr c)])]
       else []
     | none => [])

/-- Result of `processCursorResults`: `{data, hasMore, nextCursor}`. -/
structure CursorResults where
  data : List JVal
  hasMore : Bool
  nextCursor : Option String

/-- `Array.prototype.slice(0, e)`: a nonnegative end index takes a prefix, a
negative one counts from the end, NaN is coerced to `0`. -/
def jsSlice0 (xs : List JVal) (e : JSNum) : List JVal :=
  match e with
  | .nan => []
  | .int v => xs.take (if 0 ≤ v then v.toNat else ((xs.length : Int) + v).toNat)

/-- `processCursorResults(results, limit, cursorField = "id")` from
src/pagination.ts: `hasMore = results.length > limit`; `data` is
`results.slice(0, limit)` when `hasMore`, else `results`; `nextCursor` is the
stringified cursor field of the last retained element when `hasMore` holds,
the element exists (and is truthy) and the field is not `undefined`, and
`null` otherwise. -/
def processCursorResults (results : List JVal) (limit : JSNum)
    (cursorField : String := "id") : CursorResults :=
  let hasMore : Bool := match limit with
    | .nan => false
    | .int v => decide (v < (results.length : Int))
  let data := if hasMore then jsSlice0 results limit else results
  let nextCursor :=
    if hasMore && decide (data.length > 0) then
      match data.getLast? with
      | some lastItem =>
        if lastItem.jsTruthy then
          match jsIndex lastItem cursorField with
          | JVal.vUndefined => none
          | cursorValue => some (jsToString cursorValue)
        else none
      | none => none
    else none
  { data := data, hasMore := hasMore, nextCursor := nextCursor }

/-! ## src/search.ts -/

/-- `String.prototype.trim()`: strip leading and trailing whitespace,
implemented structurally over the character list so that it computes by
kernel reduction; `Char.isWhitespace` models the JavaScript whitespace
class. -/
def jsTrim (s : String) : String :=
  String.mk
    (((s.data.dropWhile Char.isWhitespace).reverse.dropWhile
        Char.isWhitespace).reverse)

/-- `buildSearchQuery(search?, fields = [])` from src/search.ts: `undefined`
(here `none`) when the term is falsy or trims to the empty string or the
field list is empty; otherwise the object
`{OR: fields.map(f => ({[f]: {contains: trimmed, mode: "insensitive"}}))}`. -/
def buildSearchQuery (search : Option String) (fields : List String) :
    Option Obj :=
  match search with
  | none => none
  | some s =>
    if s = "" ∨ jsTrim s = "" ∨ fields = [] then none
    else some
      [("OR", JVal.vArr (fields.map (fun field =>
        JVal.vObj [(field, JVal.vObj
          [("contains", JVal.vStr (jsTrim s)),
           ("mode", JVal.vStr "insensitive")])])))]

/-! ## src/filters.ts -/

/-- `isNumberRangeFilter(value)` from src/filters.ts: a non-array object
carrying a `from` or `to` key with at least one of the two typed as a
number.  (`Date` objects and `null` pass `typeof value === "object"` but
carry no `from`/`to` key, respectively are excluded explicitly.) -/
def isNumberRangeFilter : JVal → Bool
  | JVal.vObj fields =>
    (objHas fields "from" || objHas fields "to") &&
      (match objGetD fields "from" with
       | JVal.vNum _ => true
       | _ => match objGetD fields "to" with
              | JVal.vNum _ => true
              | _ => false)
  | _ => false

/-- `isDateLike(candidate)` from src/filters.ts: a `Date` instance or a
string. -/
def isDateLike : JVal → Bool
  | JVal.vDate _ => true
  | JVal.vStr _ => true
  | _ => false

/-- `x !== undefined`. -/
def isDefined : JVal → Bool
  | JVal.vUndefined => false
  | _ => true

/-- `isDateRangeFilter(value)` from src/filters.ts: a non-array object with a
`from` or `to` key at least one of which is defined and date-like. -/
def isDateRangeFilter : JVal → Bool
  | JVal.vObj fields =>
    if !(objHas fields "from") && !(objHas fields "to") then false
    else
      (isDefined (objGetD fields "from") && isDateLike (objGetD fields "from")) ||
        (isDefined (objGetD fields "to") && isDateLike (objGetD fields "to"))
  | _ => false

/-- `buildDateRangeFilter(range)` from src/filters.ts: `gte = new Date(from)`
when `from` is truthy, `lte = new Date(to)` when `to` is truthy. -/
def buildDateRangeFilter (range : JVal) : Obj :=
  let from_ := jsIndex range "from"
  let to_ := jsIndex range "to"
  (if from_.jsTruthy then [("gte", from_.jsNewDate)] else []) ++
    (if to_.jsTruthy then [("lte", to_.jsNewDate)] else [])

/-- `buildNumberRangeFilter(range)` from src/filters.ts: `gte = from` when
`from !== undefined`, `lte = to` when `to !== undefined`. -/
def buildNumberRangeFilter (range : JVal) : Obj :=
  let from_ := jsIndex range "from"
  let to_ := jsIndex range "to"
  (if isDefined from_ then [("gte", from_)] else []) ++
    (if isDefined to_ then [("lte", to_)] else [])

/-- The skip test of `buildFilters`:
`value === undefined || value === null || value === ""`. -/
def jsSkipFilterValue : JVal → Bool
  | JVal.vUndefined => true
  | JVal.vNull => true
  | JVal.vStr s => s = ""
  | _ => false

/-- One iteration of the `for (const key in filters)` loop of `buildFilters`:
skip `undefined`/`null`/`""`, then dispatch number range, date range, array
(membership when non-empty, dropped when empty), boolean, and the equality
fallback, in that order (the boolean arm and the equality fallback both
assign the value itself). -/
def buildFiltersStep (w : Obj) (key : String) (value : JVal) : Obj :=
  if jsSkipFilterValue value then w
  else if isNumberRangeFilter value then
    jsSetKey w key (JVal.vObj (buildNumberRangeFilter value))
  else if isDateRangeFilter value then
    jsSetKey w key (JVal.vObj (buildDateRangeFilter value))
  else match value with
    | JVal.vArr [] => w
    | JVal.vArr elems => jsSetKey w key (JVal.vObj [("in", JVal.vArr elems)])
    | _ => jsSetKey w key value

/-- The `for (const key in filters)` loop of `buildFilters`, threading the
accumulated `where` object. -/
def buildFiltersAux : Obj → Obj → Obj
  | [], w => w
  | (key, value) :: rest, w => buildFiltersAux rest (buildFiltersStep w key value)

/-- `buildFilters(filters)` from src/filters.ts. -/
def buildFilters (filters : Obj) : Obj :=
  buildFiltersAux filters []

/-- Index keys of a JavaScript array, as produced by `for ... in` over it. -/
def arrIndexObj (elems : List JVal) : Obj :=
  (elems.enum.map fun ev => (toString ev.1, ev.2))

/-- `buildRelationFilters(relationFilters)` from src/filters.ts: every
relation key whose value is a truthy `typeof "object"` value gets
`buildFilters` applied to it (arrays are iterated by index, `Date`s have no
enumerable keys); other values are skipped. -/
def buildRelationFilters (relationFilters : Obj) : Obj :=
  relationFilters.foldl
    (fun w rel =>
      match rel.2 with
      | JVal.vObj fields => jsSetKey w rel.1 (JVal.vObj (buildFilters fields))
      | JVal.vArr elems =>
        jsSetKey w rel.1 (JVal.vObj (buildFilters (arrIndexObj elems)))
      | JVal.vDate _ => jsSetKey w rel.1 (JVal.vObj [])
      | _ => w)
    []

/-- `buildNotFilters(notFilters)` from src/filters.ts: `undefined` when the
built filter set is empty, otherwise `{NOT: built}`. -/
def buildNotFilters (notFilters : Obj) : Option Obj :=
  let filters := buildFilters notFilters
  if filters.length = 0 then none
  else some [("NOT", JVal.vObj filters)]

/-- `combineFilters(...filterObjects)` from src/filters.ts:
`reduce((combined, current) => ({...combined, ...current}), {})` — a
left-to-right later-wins shallow merge. -/
def combineFilters (filterObjects : List Obj) : Obj :=
  filterObjects.foldl jsSpread []

/-- `combineFiltersWithOr(...filterObjects)` from src/filters.ts: drops
empty objects; `undefined` for zero survivors, the sole survivor unwrapped
for one, `{OR: survivors}` for two or more. -/
def combineFiltersWithOr (filterObjects : List Obj) : Option Obj :=
  let validFilters := filterObjects.filter (fun f => f.length > 0)
  match validFilters with
  | [] => none
  | [f] => some f
  | _ => some [("OR", JVal.vArr (validFilters.map JVal.vObj))]

/-! ## src/query-builder.ts -/

/-- The data-access collaborator (`prisma.user`, `prisma.order`, ...): each
operation takes one plain-object argument and either resolves or rejects with
an error of type `ε`. -/
structure PrismaModel (ε : Type) where
  findMany : Obj → Except ε (List JVal)
  count : Obj → Except ε Nat
  aggregate : Obj → Except ε JVal

/-- One call into the data-access layer, recorded with its argument object. -/
inductive PrismaCall where
  | findMany (args : Obj) : PrismaCall
  | count (args : Obj) : PrismaCall
  | aggregate (args : Obj) : PrismaCall

/-- `meta` of the offset-mode response envelope. -/
structure QueryMeta where
  total : Nat
  page : JSNum
  limit : JSNum
  totalPages : JSNum

/-- `QueryBuilderResponse<T>` from src/query-types.ts. -/
structure QueryBuilderResponse where
  data : List JVal
  meta : QueryMeta

/-- `meta` of the cursor-mode response envelope. -/
structure CursorQueryMeta where
  nextCursor : Option String
  hasMore : Bool
  limit : JSNum

/-- `CursorQueryBuilderResponse<T>` from src/query-types.ts. -/
structure CursorQueryBuilderResponse where
  data : List JVal
  meta : CursorQueryMeta

/-- `QueryBuilderArgs` from src/query-builder.ts, with the destructuring
defaults of `queryBuilder` (`none` models an absent property). -/
structure QueryBuilderArgs (ε : Type) where
  model : PrismaModel ε
  page : Option JSNum := none
  limit : Option JSNum := none
  search : Option String := none
  searchFields : List String := []
  filters : Obj := []
  relationFilters : Obj := []
  sortBy : String := "createdAt"
  sortOrder : String := "desc"
  inc : Option JVal := none
  sel : Option JVal := none

/-- `Math.ceil(total / take)` for a natural `total` and a JavaScript number
`take`: NaN propagates, a positive divisor gives exact ceiling division, and
a non-positive divisor (unreachable from `getPagination`, whose `take` is
clamped to `[1,100]` or NaN) is collapsed to NaN. -/
def jsCeilDivNat (total : Nat) (take : JSNum) : JSNum :=
  match take with
  | .nan => .nan
  | .int t => if 0 < t then .int (((total : Int) + t - 1).fdiv t) else .nan

/-- The entries contributed by `...(x && {key: x})`. -/
def optEntry (key : String) (x : Option JVal) : Obj :=
  match x with
  | some v => if v.jsTruthy then [(key, v)] else []
  | none => []

/-- The combined `where` object of `queryBuilder` (shared verbatim by
`advancedQueryBuilder`, `countQuery` and `aggregateQuery`):
`combineFilters(searchQuery || {}, filterQuery, relationQuery)`. -/
def queryBuilderWhere (ε : Type) (args : QueryBuilderArgs ε) : Obj :=
  let searchQuery := buildSearchQuery args.search args.searchFields
  let filterQuery := buildFilters args.filters
  let relationQuery := buildRelationFilters args.relationFilters
  combineFilters [searchQuery.getD [], filterQuery, relationQuery]

/-- The argument object `queryBuilder` passes to `model.findMany`. -/
def queryBuilderFindManyArgs (ε : Type) (args : QueryBuilderArgs ε) : Obj :=
  let pag := getPagination args.page args.limit
  combineFilters
    [[("where", JVal.vObj (queryBuilderWhere ε args)),
      ("take", JVal.vNum pag.take),
      ("skip", JVal.vNum pag.skip),
      ("orderBy", JVal.vObj [(args.sortBy, JVal.vStr args.sortOrder)])],
     optEntry "include" args.inc, optEntry "select" args.sel]

/-- The argument object `queryBuilder` passes to `model.count`. -/
def queryBuilderCountArgs (ε : Type) (args : QueryBuilderArgs ε) : Obj :=
  [("where", JVal.vObj (queryBuilderWhere ε args))]

/-- `queryBuilder(args)` from src/query-builder.ts, returning the settled
promise together with the list of data-access calls it issued.
`Promise.all` starts both operations before awaiting, so both calls are
recorded regardless of failure; a rejection of either is returned unchanged. -/
def queryBuilder {ε : Type} (args : QueryBuilderArgs ε) :
    Except ε QueryBuilderResponse × List PrismaCall :=
  let fmArgs := queryBuilderFindManyArgs ε args
  let cArgs := queryBuilderCountArgs ε args
  let pag := getPagination args.page args.limit
  let res :=
    match args.model.findMany fmArgs, args.model.count cArgs with
    | .error e, _ => .error e
    | .ok _, .error e => .error e
    | .ok data, .ok total =>
      .ok { data := data,
            meta := { total := total,
                      page := args.page.getD (.int 1),
                      limit := pag.take,
                      totalPages := jsCeilDivNat total pag.take } }
  (res, [.findMany fmArgs, .count cArgs])

/-- `CursorQueryBuilderArgs` from src/query-builder.ts, with the
destructuring defaults of `cursorQueryBuilder` (`sortBy` has no default: an
absent `sortBy` falls back to `cursorField` via `sortBy || cursorField`). -/
structure CursorQueryBuilderArgs (ε : Type) where
  model : PrismaModel ε
  cursor : Option String := none
  limit : Option JSNum := none
  search : Option String := none
  searchFields : List String := []
  filters : Obj := []
  relationFilters : Obj := []
  sortBy : Option String := none
  sortOrder : String := "desc"
  inc : Option JVal := none
  sel : Option JVal := none
  cursorField : String := "id"

/-- `sortBy || cursorField`: an absent or empty-string `sortBy` falls back to
the cursor field. -/
def effectiveSortBy (ε : Type) (args : CursorQueryBuilderArgs ε) : String :=
  match args.sortBy with
  | some s => if s = "" then args.cursorField else s
  | none => args.cursorField

/-- The combined `where` object of `cursorQueryBuilder`. -/
def cursorQueryBuilderWhere (ε : Type) (args : CursorQueryBuilderArgs ε) : Obj :=
  let searchQuery := buildSearchQuery args.search args.searchFields
  let filterQuery := buildFilters args.filters
  let relationQuery := buildRelationFilters args.relationFilters
  combineFilters [searchQuery.getD [], filterQuery, relationQuery]

/-- The `orderBy` argument of `cursorQueryBuilder`: a single sort object when
the effective sort field is the cursor field, otherwise the compound list
`[{[sortBy]: sortOrder}, {[cursorField]: sortOrder}]`. -/
def cursorQueryBuilderOrderBy (ε : Type) (args : CursorQueryBuilderArgs ε) : JVal :=
  let eff := effectiveSortBy ε args
  if eff = args.cursorField then
    JVal.vObj [(eff, JVal.vStr args.sortOrder)]
  else
    JVal.vArr [JVal.vObj [(eff, JVal.vStr args.sortOrder)],
               JVal.vObj [(args.cursorField, JVal.vStr args.sortOrder)]]

/-- The argument object `cursorQueryBuilder` passes to `model.findMany`:
`{where, ...cursorPagination, orderBy, ...include?, ...select?}`. -/
def cursorQueryBuilderFindManyArgs (ε : Type) (args : CursorQueryBuilderArgs ε) : Obj :=
  combineFilters
    [[("where", JVal.vObj (cursorQueryBuilderWhere ε args))],
     getCursorPagination args.cursor args.cursorField args.limit,
     [("orderBy", cursorQueryBuilderOrderBy ε args)],
     optEntry "include" args.inc, optEntry "select" args.sel]

/-- `cursorQueryBuilder(args)` from src/query-builder.ts, returning the
settled promise together with the data-access calls it issued. -/
def cursorQueryBuilder {ε : Type} (args : CursorQueryBuilderArgs ε) :
    Except ε CursorQueryBuilderResponse × List PrismaCall :=
  let fmArgs := cursorQueryBuilderFindManyArgs ε args
  let limit := args.limit.getD DEFAULT_LIMIT
  let res :=
    match args.model.findMany fmArgs with
    | .error e => .error e
    | .ok results =>
      let pcr := processCursorResults results limit args.cursorField
      .ok { data := pcr.data,
            meta := { nextCursor := pcr.nextCursor,
                      hasMore := pcr.hasMore,
                      limit := limit } }
  (res, [.findMany fmArgs])

/-- Arguments of `advancedQueryBuilder`: `QueryBuilderArgs` with
`sortBy`/`sortOrder` replaced by an ordered `sortFields` list
(default `[{field: "createdAt", order: "desc"}]`). -/
structure AdvancedQueryBuilderArgs (ε : Type) where
  model : PrismaModel ε
  page : Option JSNum := none
  limit : Option JSNum := none
  search : Option String := none
  searchFields : List String := []
  filters : Obj := []
  relationFilters : Obj := []
  sortFields : List (String × String) := [("createdAt", "desc")]
  inc : Option JVal := none
  sel : Option JVal := none

/-- The combined `where` object of `advancedQueryBuilder`. -/
def advancedQueryBuilderWhere (ε : Type) (args : AdvancedQueryBuilderArgs ε) : Obj :=
  let searchQuery := buildSearchQuery args.search args.searchFields
  let filterQuery := buildFilters args.filters
  let relationQuery := buildRelationFilters args.relationFilters
  combineFilters [searchQuery.getD [], filterQuery, relationQuery]

/-- The argument object `advancedQueryBuilder` passes to `model.findMany`:
its `orderBy` is the list `sortFields.map(s => ({[s.field]: s.order}))`. -/
def advancedQueryBuilderFindManyArgs (ε : Type)
    (args : AdvancedQueryBuilderArgs ε) : Obj :=
  let pag := getPagination args.page args.limit
  combineFilters
    [[("where", JVal.vObj (advancedQueryBuilderWhere ε args)),
      ("take", JVal.vNum pag.take),
      ("skip", JVal.vNum pag.skip),
      ("orderBy", JVal.vArr (args.sortFields.map (fun s =>
        JVal.vObj [(s.1, JVal.vStr s.2)])))],
     optEntry "include" args.inc, optEntry "select" args.sel]

/-- The argument object `advancedQueryBuilder` passes to `model.count`. -/
def advancedQueryBuilderCountArgs (ε : Type)
    (args : AdvancedQueryBuilderArgs ε) : Obj :=
  [("where", JVal.vObj (advancedQueryBuilderWhere ε args))]

/-- `advancedQueryBuilder(args)` from src/query-builder.ts. -/
def advancedQueryBuilder {ε : Type} (args : AdvancedQueryBuilderArgs ε) :
    Except ε QueryBuilderResponse × List PrismaCall :=
  let fmArgs := advancedQueryBuilderFindManyArgs ε args
  let cArgs := advancedQueryBuilderCountArgs ε args
  let pag := getPagination args.page args.limit
  let res :=
    match args.model.findMany fmArgs, args.model.count cArgs with
    | .error e, _ => .error e
    | .ok _, .error e => .error e
    | .ok data, .ok total =>
      .ok { data := data,
            meta := { total := total,
                      page := args.page.getD (.int 1),
                      limit := pag.take,
                      totalPages := jsCeilDivNat total pag.take } }
  (res, [.findMany fmArgs, .count cArgs])

/-- Arguments of `countQuery` (no pagination, sorting or projection). -/
structure CountQueryArgs (ε : Type) where
  model : PrismaModel ε
  filters : Obj := []
  relationFilters : Obj := []
  search : Option String := none
  searchFields : List String := []

/-- The argument object `countQuery` passes to `model.count`. -/
def countQueryArgs (ε : Type) (args : CountQueryArgs ε) : Obj :=
  let searchQuery := buildSearchQuery args.search args.searchFields
  let filterQuery := buildFilters args.filters
  let relationQuery := buildRelationFilters args.relationFilters
  [("where", JVal.vObj
    (combineFilters [searchQuery.getD [], filterQuery, relationQuery]))]

/-- `countQuery(args)` from src/query-builder.ts. -/
def countQuery {ε : Type} (args : CountQueryArgs ε) :
    Except ε Nat × List PrismaCall :=
  let cArgs := countQueryArgs ε args
  (args.model.count cArgs, [.count cArgs])

/-- Arguments of `aggregateQuery`: the filter pipeline plus a caller-supplied
aggregation spec, modelled as the object spread into the argument. -/
structure AggregateQueryArgs (ε : Type) where
  model : PrismaModel ε
  filters : Obj := []
  relationFilters : Obj := []
  search : Option String := none
  searchFields : List String := []
  aggregations : Obj := []

/-- The argument object `aggregateQuery` passes to `model.aggregate`:
`{where, ...aggregations}`. -/
def aggregateQueryArgs (ε : Type) (args : AggregateQueryArgs ε) : Obj :=
  let searchQuery := buildSearchQuery args.search args.searchFields
  let filterQuery := buildFilters args.filters
  let relationQuery := buildRelationFilters args.relationFilters
  jsSpread
    [("where", JVal.vObj
      (combineFilters [searchQuery.getD [], filterQuery, relationQuery]))]
    args.aggregations

/-- `aggregateQuery(args)` from src/query-builder.ts. -/
def aggregateQuery {ε : Type} (args : AggregateQueryArgs ε) :
    Except ε JVal × List PrismaCall :=
  let aArgs := aggregateQueryArgs ε args
  (args.model.aggregate aArgs, [.aggregate aArgs])

/-! ## Object-operation lemmas -/

theorem objGet_eq_none_of_not_mem {o : Obj} {k : String}
    (h : k ∉ o.map Prod.fst) : objGet o k = none := by
  induction o with
  | nil => rfl
  | cons kv rest ih =>
    simp only [List.map_cons, List.mem_cons] at h
    push_neg at h
    simp only [objGet]
    rw [if_neg (by exact fun hk => h.1 hk.symm)]
    exact ih h.2

theorem objGet_jsSetKey (o : Obj) (k : String) (v : JVal) (k' : String) :
    objGet (jsSetKey o k v) k' = if k = k' then some v else objGet o k' := by
  induction o with
  | nil => simp [jsSetKey, objGet]
  | cons kv rest ih =>
    obtain ⟨k0, v0⟩ := kv
    simp only [jsSetKey]
    by_cases h0 : k0 = k
    · subst h0
      simp only [if_pos rfl, objGet]
      by_cases h : k0 = k' <;> simp [h]
    · rw [if_neg h0]
      simp only [objGet]
      by_cases h : k0 = k'
      · subst h
        rw [if_pos rfl, if_pos rfl, if_neg (by exact fun hk => h0 hk.symm)]
      · rw [if_neg h, if_neg h, ih]

theorem jsSetKey_map_fst_of_mem {o : Obj} {k : String} (v : JVal)
    (h : k ∈ o.map Prod.fst) : (jsSetKey o k v).map Prod.fst = o.map Prod.fst := by
  induction o with
  | nil => simp at h
  | cons kv rest ih =>
    obtain ⟨k0, v0⟩ := kv
    simp only [jsSetKey]
    by_cases h0 : k0 = k
    · subst h0; simp
    · rw [if_neg h0]
      simp only [List.map_cons, List.mem_cons] at h ⊢
      rcases h with h | h
      · exact absurd h.symm h0
      · rw [ih h]

theorem jsSetKey_map_fst_of_not_mem {o : Obj} {k : String} (v : JVal)
    (h : k ∉ o.map Prod.fst) :
    (jsSetKey o k v).map Prod.fst = o.map Prod.fst ++ [k] := by
  induction o with
  | nil => simp [jsSetKey]
  | cons kv rest ih =>
    obtain ⟨k0, v0⟩ := kv
    simp only [List.map_cons, List.mem_cons] at h
    push_neg at h
    simp only [jsSetKey]
    rw [if_neg (by exact fun hk => h.1 hk.symm)]
    simp only [List.map_cons, List.cons_append, List.cons.injEq, true_and]
    exact ih h.2

theorem jsSetKey_nodup {o : Obj} {k : String} (v : JVal)
    (h : (o.map Prod.fst).Nodup) : ((jsSetKey o k v).map Prod.fst).Nodup := by
  by_cases hm : k ∈ o.map Prod.fst
  · rw [jsSetKey_map_fst_of_mem v hm]; exact h
  · rw [jsSetKey_map_fst_of_not_mem v hm, List.nodup_append]
    refine ⟨h, List.nodup_singleton _, ?_⟩
    intro a ha hb
    simp only [List.mem_singleton] at hb
    subst hb
    exact hm ha

theorem jsSpread_nil_right (a : Obj) : jsSpread a [] = a := rfl

theorem objGet_jsSpread (a : Obj) {b : Obj} (k : String)
    (hb : (b.map Prod.fst).Nodup) :
    objGet (jsSpread a b) k =
      match objGet b k with
      | some v => some v
      | none => objGet a k := by
  induction b generalizing a with
  | nil => rfl
  | cons kv rest ih =>
    obtain ⟨k0, v0⟩ := kv
    simp only [List.map_cons, List.nodup_cons] at hb
    have step : jsSpread a ((k0, v0) :: rest) = jsSpread (jsSetKey a k0 v0) rest := rfl
    rw [step, ih _ hb.2]
    simp only [objGet]
    by_cases h : k0 = k
    · subst h
      rw [if_pos rfl, objGet_eq_none_of_not_mem hb.1, objGet_jsSetKey, if_pos rfl]
    · rw [if_neg h, objGet_jsSetKey, if_neg h]

theorem jsSpread_nil_left {b : Obj} (hb : (b.map Prod.fst).Nodup) :
    jsSpread [] b = b := by
  have aux : ∀ (b : Obj) (a : Obj), (b.map Prod.fst).Nodup →
      (∀ k ∈ b.map Prod.fst, k ∉ a.map Prod.fst) → jsSpread a b = a ++ b := by
    intro b
    induction b with
    | nil => intro a _ _; simp [jsSpread_nil_right]
    | cons kv rest ih =>
      intro a hnd hdisj
      obtain ⟨k0, v0⟩ := kv
      simp only [List.map_cons, List.nodup_cons] at hnd
      have step : jsSpread a ((k0, v0) :: rest) = jsSpread (jsSetKey a k0 v0) rest := rfl
      have hk0 : k0 ∉ a.map Prod.fst := hdisj k0 (by simp)
      have hset : jsSetKey a k0 v0 = a ++ [(k0, v0)] := by
        clear step hdisj
        induction a with
        | nil => rfl
        | cons kv' rest' ih' =>
          obtain ⟨k1, v1⟩ := kv'
          simp only [List.map_cons, List.mem_cons] at hk0
          push_neg at hk0
          simp only [jsSetKey]
          rw [if_neg (by exact fun hk => hk0.1 hk.symm)]
          simp [ih' hk0.2]
      rw [step, hset, ih _ hnd.2]
      · simp
      · intro k hk
        simp only [List.map_append, List.mem_append, List.map_cons] at *
        rintro (hka | hkl)
        · exact hdisj k (by simp [hk]) hka
        · simp only [List.map_nil, List.mem_singleton] at hkl
          subst hkl
          exact hnd.1 hk
  simpa using aux b [] hb (by simp)

/-! ## buildFilters lemmas -/

/-- `from` or `to` is a number-typed bound. -/
def numBound : JVal → Bool
  | JVal.vNum _ => true
  | _ => false

/-- `from` or `to` is a string- or Date-typed bound. -/
def strOrDateBound : JVal → Bool
  | JVal.vStr _ => true
  | JVal.vDate _ => true
  | _ => false

/-- The per-key dispatch exactly as claim C6 words it, as a function from the
key's value to the optional condition the key maps to (`none` means the key
is absent from the result): `undefined`/`null`/`""` dropped; an object with a
`from`/`to` key at least one bound of which is a number becomes `{gte?, lte?}`
with an absent (`undefined`) bound omitted, checked before the date range; an
object with a string- or Date-typed `from`/`to` becomes a date range whose
truthy bounds are coerced with the `Date` constructor (a falsy bound — absent,
`undefined`, or the empty string — is omitted, the date-range analogue of the
omitted absent numeric bound); a non-empty array becomes an `in` membership
condition while an empty array drops the key; a boolean passes through
literally; everything else, including an object matching neither range shape,
becomes an equality literal. -/
def claimedFilterDispatch : JVal → Option JVal
  | JVal.vUndefined => none
  | JVal.vNull => none
  | JVal.vStr s => if s = "" then none else some (JVal.vStr s)
  | JVal.vObj fields =>
    if (objHas fields "from" || objHas fields "to") &&
        (numBound (objGetD fields "from") || numBound (objGetD fields "to")) then
      some (JVal.vObj
        ((if isDefined (objGetD fields "from") then
            [("gte", objGetD fields "from")] else []) ++
         (if isDefined (objGetD fields "to") then
            [("lte", objGetD fields "to")] else [])))
    else if strOrDateBound (objGetD fields "from") ||
        strOrDateBound (objGetD fields "to") then
      some (JVal.vObj
        ((if (objGetD fields "from").jsTruthy then
            [("gte", (objGetD fields "from").jsNewDate)] else []) ++
         (if (objGetD fields "to").jsTruthy then
            [("lte", (objGetD fields "to").jsNewDate)] else [])))
    else some (JVal.vObj fields)
  | JVal.vArr [] => none
  | JVal.vArr elems => some (JVal.vObj [("in", JVal.vArr elems)])
  | JVal.vBool b => some (JVal.vBool b)
  | JVal.vNum n => some (JVal.vNum n)
  | JVal.vDate d => some (JVal.vDate d)

/-- An absent key reads as `undefined`. -/
theorem objGetD_of_not_has {o : Obj} {k : String} (h : objHas o k = false) :
    objGetD o k = JVal.vUndefined := by
  unfold objHas at h
  unfold objGetD
  cases hg : objGet o k with
  | none => rfl
  | some v => rw [hg] at h; simp at h

/-- The source's defined-and-date-like test coincides with the claimed
"string- or Date-typed" test. -/
theorem strOrDateBound_eq (x : JVal) :
    (isDefined x && isDateLike x) = strOrDateBound x := by
  cases x <;> rfl

/-- The source's `isNumberRangeFilter` guard on a plain object coincides with
the claimed "object with `from`/`to`, at least one bound a number" test. -/
theorem isNumberRangeFilter_eq (fields : List (String × JVal)) :
    isNumberRangeFilter (JVal.vObj fields) =
      ((objHas fields "from" || objHas fields "to") &&
       (numBound (objGetD fields "from") || numBound (objGetD fields "to"))) := by
  show ((objHas fields "from" || objHas fields "to") &&
      (match objGetD fields "from" with
       | JVal.vNum _ => true
       | _ => match objGetD fields "to" with
              | JVal.vNum _ => true
              | _ => false)) = _
  congr 1
  cases objGetD fields "from" <;> cases objGetD fields "to" <;> rfl

/-- The source's `isDateRangeFilter` guard on a plain object coincides with
the claimed "object with a string- or Date-typed `from`/`to`" test. -/
theorem isDateRangeFilter_eq (fields : List (String × JVal)) :
    isDateRangeFilter (JVal.vObj fields) =
      (strOrDateBound (objGetD fields "from") ||
       strOrDateBound (objGetD fields "to")) := by
  show (if !(objHas fields "from") && !(objHas fields "to") then false
    else
      (isDefined (objGetD fields "from") && isDateLike (objGetD fields "from")) ||
        (isDefined (objGetD fields "to") && isDateLike (objGetD fields "to"))) = _
  rw [strOrDateBound_eq, strOrDateBound_eq]
  by_cases hf : objHas fields "from" = true
  · rw [hf]; rfl
  · have hf' := eq_false_of_ne_true hf
    by_cases ht : objHas fields "to" = true
    · rw [hf', ht]; rfl
    · have ht' := eq_false_of_ne_true ht
      rw [hf', ht', objGetD_of_not_has hf', objGetD_of_not_has ht']
      rfl

/-- The source's loop body agrees with the claimed dispatch: it either writes
the dispatched condition or leaves the accumulator untouched. -/
theorem buildFiltersStep_eq_claimed (w : Obj) (key : String) (value : JVal) :
    buildFiltersStep w key value =
      match claimedFilterDispatch value with
      | some r => jsSetKey w key r
      | none => w := by
  cases value with
  | vUndefined => rfl
  | vNull => rfl
  | vBool b => rfl
  | vNum n => rfl
  | vDate d => rfl
  | vStr s =>
    by_cases hs : s = ""
    · subst hs; rfl
    · simp [buildFiltersStep, claimedFilterDispatch, jsSkipFilterValue,
        isNumberRangeFilter, isDateRangeFilter, hs]
  | vArr elems => cases elems <;> rfl
  | vObj fields =>
    simp only [buildFiltersStep, claimedFilterDispatch, jsSkipFilterValue,
      Bool.false_eq_true, if_false, isNumberRangeFilter_eq, isDateRangeFilter_eq]
    by_cases hnum : ((objHas fields "from" || objHas fields "to") &&
        (numBound (objGetD fields "from") || numBound (objGetD fields "to"))) = true
    · rw [if_pos hnum, if_pos hnum]
      simp [buildNumberRangeFilter, jsIndex]
    · rw [if_neg hnum, if_neg hnum]
      by_cases hdate : (strOrDateBound (objGetD fields "from") ||
          strOrDateBound (objGetD fields "to")) = true
      · rw [if_pos hdate, if_pos hdate]
        simp [buildDateRangeFilter, jsIndex]
      · rw [if_neg hdate, if_neg hdate]

/-- Keys written by the loop body come from the accumulator or are the
iterated key. -/
theorem buildFiltersStep_map_fst_subset (w : Obj) (key : String) (value : JVal) :
    ∀ k ∈ (buildFiltersStep w key value).map Prod.fst,
      k ∈ w.map Prod.fst ∨ k = key := by
  intro k hk
  rw [buildFiltersStep_eq_claimed] at hk
  cases h : claimedFilterDispatch value with
  | none => rw [h] at hk; exact Or.inl hk
  | some r =>
    rw [h] at hk
    by_cases hm : key ∈ w.map Prod.fst
    · rw [jsSetKey_map_fst_of_mem r hm] at hk; exact Or.inl hk
    · rw [jsSetKey_map_fst_of_not_mem r hm] at hk
      simp only [List.mem_append, List.mem_singleton] at hk
      exact hk

/-- The loop body preserves key uniqueness of the accumulator. -/
theorem buildFiltersStep_nodup {w : Obj} (key : String) (value : JVal)
    (h : (w.map Prod.fst).Nodup) :
    ((buildFiltersStep w key value).map Prod.fst).Nodup := by
  rw [buildFiltersStep_eq_claimed]
  cases claimedFilterDispatch value with
  | none => exact h
  | some r => exact jsSetKey_nodup r h

/-- The accumulated `where` object of `buildFilters` always has unique keys. -/
theorem buildFiltersAux_nodup (fs : Obj) (w : Obj)
    (h : (w.map Prod.fst).Nodup) :
    ((buildFiltersAux fs w).map Prod.fst).Nodup := by
  induction fs generalizing w with
  | nil => exact h
  | cons kv rest ih => exact ih _ (buildFiltersStep_nodup kv.1 kv.2 h)

/-- `buildFilters` has unique keys. -/
theorem buildFilters_nodup (fs : Obj) :
    ((buildFilters fs).map Prod.fst).Nodup :=
  buildFiltersAux_nodup fs [] (by simp)

/-- Every key of `buildFilters`' output is a key of its input. -/
theorem buildFilters_keys_subset (fs : Obj) :
    ∀ k ∈ (buildFilters fs).map Prod.fst, k ∈ fs.map Prod.fst := by
  have aux : ∀ (fs : Obj) (w : Obj) (k : String),
      k ∈ (buildFiltersAux fs w).map Prod.fst →
      k ∈ w.map Prod.fst ∨ k ∈ fs.map Prod.fst := by
    intro fs
    induction fs with
    | nil => intro w k hk; exact Or.inl hk
    | cons kv rest ih =>
      intro w k hk
      rcases ih _ k hk with h | h
      · rcases buildFiltersStep_map_fst_subset w kv.1 kv.2 k h with h' | h'
        · exact Or.inl h'
        · exact Or.inr (by simp [h'])
      · exact Or.inr (by simp [h])
  intro k hk
  rcases aux fs [] k hk with h | h
  · simp at h
  · exact h

/-- Pointwise characterization of the `buildFilters` loop: on an input with
unique keys, looking a key up in the result runs the claimed dispatch on the
key's input value, and falls back to the accumulator for keys that are
skipped or absent. -/
theorem buildFiltersAux_objGet (fs : Obj) (w : Obj) (k : String)
    (hnd : (fs.map Prod.fst).Nodup) :
    objGet (buildFiltersAux fs w) k =
      match objGet fs k with
      | some v =>
        (match claimedFilterDispatch v with
         | some r => some r
         | none => objGet w k)
      | none => objGet w k := by
  induction fs generalizing w with
  | nil => rfl
  | cons kv rest ih =>
    obtain ⟨k0, v0⟩ := kv
    simp only [List.map_cons, List.nodup_cons] at hnd
    have step : buildFiltersAux ((k0, v0) :: rest) w =
        buildFiltersAux rest (buildFiltersStep w k0 v0) := rfl
    rw [step, ih _ hnd.2]
    have hw : ∀ k', k0 ≠ k' → objGet (buildFiltersStep w k0 v0) k' = objGet w k' := by
      intro k' hne
      rw [buildFiltersStep_eq_claimed]
      cases hcd : claimedFilterDispatch v0 with
      | none => rfl
      | some r => rw [objGet_jsSetKey, if_neg hne]
    by_cases h : k0 = k
    · subst h
      have hrest : objGet rest k0 = none := objGet_eq_none_of_not_mem hnd.1
      rw [hrest]
      simp only [objGet, if_pos rfl]
      rw [buildFiltersStep_eq_claimed]
      cases hcd : claimedFilterDispatch v0 with
      | none => simp [hcd]
      | some r => simp [hcd, objGet_jsSetKey]
    · simp only [objGet, if_neg h]
      cases hrest : objGet rest k with
      | none => simp [hw k h]
      | some v =>
        cases hcd : claimedFilterDispatch v with
        | none => simp [hcd, hw k h]
        | some r => simp [hcd]

/-! ## Supporting lemmas for the orchestrator claims -/

/-- Looking a key up past a spread whose fields all have other keys. -/
theorem objGet_jsSpread_not_mem {b : Obj} (a : Obj) (k : String)
    (h : k ∉ b.map Prod.fst) : objGet (jsSpread a b) k = objGet a k := by
  induction b generalizing a with
  | nil => rfl
  | cons kv rest ih =>
    simp only [List.map_cons, List.mem_cons] at h
    push_neg at h
    have step : jsSpread a (kv :: rest) = jsSpread (jsSetKey a kv.1 kv.2) rest := rfl
    rw [step, ih _ h.2, objGet_jsSetKey, if_neg (by exact fun hk => h.1 hk.symm)]

/-- Keys of `...(x && {key: x})` are at most `key`. -/
theorem optEntry_keys (key : String) (x : Option JVal) (k : String)
    (h : k ≠ key) : k ∉ (optEntry key x).map Prod.fst := by
  cases x with
  | none => simp [optEntry]
  | some v =>
    simp only [optEntry]
    by_cases ht : v.jsTruthy <;> simp [ht, h]

/-- Keys of `getCursorPagination`'s result are among take/skip/cursor. -/
theorem getCursorPagination_keys (cursor : Option String) (cf : String)
    (limit : Option JSNum) (k : String) (h1 : k ≠ "take") (h2 : k ≠ "skip")
    (h3 : k ≠ "cursor") :
    k ∉ (getCursorPagination cursor cf limit).map Prod.fst := by
  cases cursor with
  | none => simp [getCursorPagination, h1]
  | some c =>
    by_cases hc : c = "" <;> simp [getCursorPagination, hc, h1, h2, h3]

/-- The resolved `take` of `getPagination` is an integer in `[1, 100]`
whenever it is not NaN. -/
theorem getPagination_take_bounds (page limit : Option JSNum) (t : Int)
    (h : (getPagination page limit).take = .int t) : 1 ≤ t ∧ t ≤ 100 := by
  cases hl : limit.getD (JSNum.int 10) with
  | nan =>
    exfalso
    have : (getPagination page limit).take = .nan := by
      simp [getPagination, DEFAULT_LIMIT, MAX_LIMIT, hl, jsMax, jsMin]
    rw [this] at h
    exact JSNum.noConfusion h
  | int v =>
    have : (getPagination page limit).take = .int (min (max 1 v) 100) := by
      simp [getPagination, DEFAULT_LIMIT, MAX_LIMIT, hl, jsMax, jsMin]
    rw [this] at h
    injection h with h
    omega

/-- For a positive integer divisor, `jsCeilDivNat` is exactly ceiling
division: the least natural `tp` with `total ≤ tp * t`. -/
theorem jsCeilDivNat_spec (total : Nat) (t : Int) (ht : 1 ≤ t) :
    ∃ tp : Nat, jsCeilDivNat total (.int t) = .int tp ∧
      total ≤ tp * t.toNat ∧ ∀ m : Nat, total ≤ m * t.toNat → tp ≤ m := by
  have h0 : (0 : Int) < t := by omega
  have htn : ((t.toNat : Nat) : Int) = t := Int.toNat_of_nonneg (by omega)
  have htn1 : 1 ≤ t.toNat := by omega
  refine ⟨total ⌈/⌉ t.toNat, ?_, ?_, ?_⟩
  · simp only [jsCeilDivNat, if_pos h0]
    congr 1
    have hcast : ((total : Int) + t - 1) = ((total + t.toNat - 1 : Nat) : Int) := by
      omega
    rw [hcast, Int.fdiv_eq_ediv _ (by omega), ← htn, ← Int.ofNat_ediv,
      Nat.ceilDiv_eq_add_pred_div]
    simp
  · have h := le_smul_ceilDiv (α := Nat) (show 0 < t.toNat by omega) (b := total)
    simpa [smul_eq_mul, Nat.mul_comm] using h
  · intro m hm
    exact (ceilDiv_le_iff_le_mul (show 0 < t.toNat by omega)).2
      (by rwa [Nat.mul_comm] at hm)

/-! ## Claim theorems -/

/-- C3: `getPagination` never rejects its input — for every numeric (or
absent) `page` and `limit`, including NaN and negatives, it returns
`take = Math.min(Math.max(1, limit), 100)` (the clamp of `limit` to
`[1, 100]`, which passes NaN through silently) and
`skip = (Math.max(1, page) - 1) * take`; in particular, for integer
`page ≥ 1` and `limit ∈ [1, 100]`, `take = limit` and
`skip = (page - 1) * limit`. -/
theorem getPagination_clamps_and_offsets :
    ∀ (page limit : Option JSNum),
      (getPagination page limit).take =
        jsMin (jsMax (.int 1) (limit.getD (.int 10))) (.int 100) ∧
      (getPagination page limit).skip =
        jsMul (jsSub (jsMax (.int 1) (page.getD (.int 1))) (.int 1))
          ((getPagination page limit).take) ∧
      (∀ (p l : Int), 1 ≤ p → 1 ≤ l → l ≤ 100 →
        (getPagination (some (.int p)) (some (.int l))).take = .int l ∧
        (getPagination (some (.int p)) (some (.int l))).skip =
          .int ((p - 1) * l)) := by
  intro page limit
  refine ⟨rfl, rfl, ?_⟩
  intro p l hp hl1 hl2
  constructor
  · show jsMin (jsMax (.int 1) (.int l)) (.int 100) = JSNum.int l
    simp only [jsMin, jsMax, JSNum.int.injEq]
    omega
  · show jsMul (jsSub (jsMax (.int 1) (.int p)) (.int 1))
      (jsMin (jsMax (.int 1) (.int l)) (.int 100)) = JSNum.int ((p - 1) * l)
    simp only [jsMin, jsMax, jsMul, jsSub, JSNum.int.injEq]
    have h1 : max 1 p = p := by omega
    have h2 : min (max 1 l) 100 = l := by omega
    rw [h1, h2]

/-- Witness for C3 at `page = 3`, `limit = 7`. -/
theorem getPagination_clamps_and_offsets_witness :
    (1 : Int) ≤ 3 ∧ (1 : Int) ≤ 7 ∧ (7 : Int) ≤ 100 ∧
    (getPagination (some (.int 3)) (some (.int 7))).take = .int 7 ∧
    (getPagination (some (.int 3)) (some (.int 7))).skip = .int ((3 - 1) * 7) :=
  ⟨by norm_num, by norm_num, by norm_num,
   ((getPagination_clamps_and_offsets (some (.int 3)) (some (.int 7))).2.2 3 7
     (by norm_num) (by norm_num) (by norm_num)).1,
   ((getPagination_clamps_and_offsets (some (.int 3)) (some (.int 7))).2.2 3 7
     (by norm_num) (by norm_num) (by norm_num)).2⟩

/-- C4 counterexample: the claim "for all limit, take == limit + 1" fails at
`limit = 200`, where the clamp makes `take = 101 ≠ 201`; and a present but
empty-string cursor yields no `skip` field (the spread tests truthiness, not
presence). -/
theorem getCursorPagination_claim_counterexample :
    objGet (getCursorPagination none "id" (some (.int 200))) "take" ≠
        some (JVal.vNum (.int (200 + 1))) ∧
    objGet (getCursorPagination (some "") "id" (some (.int 10))) "skip" ≠
        some (JVal.vNum (.int 1)) := by
  constructor
  · intro h
    have h101 : objGet (getCursorPagination none "id" (some (.int 200))) "take" =
        some (JVal.vNum (.int 101)) := rfl
    rw [h101] at h
    simp at h
  · intro h
    have hnone : objGet (getCursorPagination (some "") "id" (some (.int 10))) "skip" =
        none := rfl
    rw [hnone] at h
    simp at h

/-- C4 amended: `take = clamp(limit, 1, 100) + 1`; a present non-empty cursor
additionally yields `skip = 1` and `cursor = {[cursorField]: cursor}`; an
absent or empty-string cursor yields only the `take` field. -/
theorem getCursorPagination_amended :
    ∀ (cursor : Option String) (cf : String) (l : Int),
      objGet (getCursorPagination cursor cf (some (.int l))) "take" =
        some (JVal.vNum (.int (min (max 1 l) 100 + 1))) ∧
      (∀ c, cursor = some c → c ≠ "" →
        objGet (getCursorPagination cursor cf (some (.int l))) "skip" =
            some (JVal.vNum (.int 1)) ∧
        objGet (getCursorPagination cursor cf (some (.int l))) "cursor" =
            some (JVal.vObj [(cf, JVal.vStr c)])) ∧
      ((cursor = none ∨ cursor = some "") →
        getCursorPagination cursor cf (some (.int l)) =
          [("take", JVal.vNum (.int (min (max 1 l) 100 + 1)))]) := by
  intro cursor cf l
  have htake : jsAdd (jsMin (jsMax (.int 1) (.int l)) MAX_LIMIT) (.int 1) =
      JSNum.int (min (max 1 l) 100 + 1) := by
    simp [jsMin, jsMax, jsAdd, MAX_LIMIT]
  refine ⟨?_, ?_, ?_⟩
  · cases cursor with
    | none => simp [getCursorPagination, objGet, htake]
    | some c =>
      by_cases hc : c = "" <;>
        simp [getCursorPagination, objGet, htake, hc]
  · intro c hcur hc
    subst hcur
    constructor <;> simp [getCursorPagination, objGet, hc]
  · rintro (hcur | hcur) <;> subst hcur <;>
      simp [getCursorPagination, htake]

/-- Witness for the amended C4 at `cursor = "abc"`, `limit = 5`. -/
theorem getCursorPagination_amended_witness :
    objGet (getCursorPagination (some "abc") "id" (some (.int 5))) "take" =
        some (JVal.vNum (.int (min (max 1 5) 100 + 1))) ∧
    ((("abc" : String) ≠ "") ∧
      objGet (getCursorPagination (some "abc") "id" (some (.int 5))) "skip" =
          some (JVal.vNum (.int 1)) ∧
      objGet (getCursorPagination (some "abc") "id" (some (.int 5))) "cursor" =
          some (JVal.vObj [("id", JVal.vStr "abc")])) :=
  ⟨(getCursorPagination_amended (some "abc") "id" 5).1,
   by decide,
   ((getCursorPagination_amended (some "abc") "id" 5).2.1 "abc" rfl (by decide)).1,
   ((getCursorPagination_amended (some "abc") "id" 5).2.1 "abc" rfl (by decide)).2⟩

/-- `slice(0, n)` for a natural end index is `take n`. -/
theorem jsSlice0_natCast (xs : List JVal) (n : Nat) :
    jsSlice0 xs (.int (n : Int)) = xs.take n := by
  simp [jsSlice0, Int.natCast_nonneg]

/-- Reduction of `nextCursor` when the over-fetch detected a further page
and the trimmed list is non-empty. -/
theorem processCursorResults_nextCursor_of (results : List JVal) (limit : Nat)
    (cf : String) (hm : (limit : Int) < (results.length : Int))
    (hpos : 0 < (results.take limit).length) :
    (processCursorResults results (.int limit) cf).nextCursor =
      match (results.take limit).getLast? with
      | some lastItem =>
        if lastItem.jsTruthy then
          match jsIndex lastItem cf with
          | JVal.vUndefined => none
          | cursorValue => some (jsToString cursorValue)
        else none
      | none => none := by
  simp only [processCursorResults, decide_eq_true hm, if_true,
    jsSlice0_natCast, Bool.true_and, decide_eq_true hpos]

/-- C5: on a `limit+1`-length input, `processCursorResults` trims exactly the
trailing element, reports `hasMore`, and `nextCursor` is the stringified
cursor field of the new last element (when that field is present and
defined); on an input of length at most `limit` it returns the list
unchanged with `hasMore = false` and `nextCursor = null`; and in the
`limit = 0` pathological case the trimmed list is empty and `nextCursor`
stays `null` even though `hasMore` is true. -/
theorem processCursorResults_spec :
    ∀ (results : List JVal) (limit : Nat) (cf : String),
      (results.length = limit + 1 →
        (processCursorResults results (.int limit) cf).data =
            results.take limit ∧
        (processCursorResults results (.int limit) cf).hasMore = true ∧
        (∀ last v, (results.take limit).getLast? = some last →
          jsIndex last cf = v → v ≠ JVal.vUndefined →
          (processCursorResults results (.int limit) cf).nextCursor =
            some (jsToString v))) ∧
      (results.length ≤ limit →
        (processCursorResults results (.int limit) cf).data = results ∧
        (processCursorResults results (.int limit) cf).hasMore = false ∧
        (processCursorResults results (.int limit) cf).nextCursor = none) ∧
      (limit = 0 → 0 < results.length →
        (processCursorResults results (.int limit) cf).data = [] ∧
        (processCursorResults results (.int limit) cf).hasMore = true ∧
        (processCursorResults results (.int limit) cf).nextCursor = none) := by
  intro results limit cf
  refine ⟨?_, ?_, ?_⟩
  · intro hlen
    have hm : ((limit : Int) < (results.length : Int)) := by
      rw [hlen]; exact_mod_cast Nat.lt_succ_self limit
    have hdata : (processCursorResults results (.int limit) cf).data =
        results.take limit := by
      simp [processCursorResults, hm, jsSlice0_natCast]
    refine ⟨hdata, by simp [processCursorResults, hm], ?_⟩
    intro last v hlast hv hne
    have hne' : results.take limit ≠ [] := by
      intro h
      rw [h] at hlast
      simp at hlast
    have hpos : 0 < (results.take limit).length := List.length_pos.mpr hne'
    rw [processCursorResults_nextCursor_of results limit cf hm hpos, hlast]
    cases last with
    | vObj fields =>
      have hv' : objGetD fields cf = v := hv
      simp only [JVal.jsTruthy, if_true, jsIndex]
      rw [hv']
      cases v with
      | vUndefined => exact absurd rfl hne
      | vNull => rfl
      | vBool b => rfl
      | vNum n => rfl
      | vStr s => rfl
      | vDate d => rfl
      | vArr elems => rfl
      | vObj f2 => rfl
    | vUndefined => exact absurd (hv.symm.trans rfl) hne
    | vNull => exact absurd (hv.symm.trans rfl) hne
    | vBool b => exact absurd (hv.symm.trans rfl) hne
    | vNum n => exact absurd (hv.symm.trans rfl) hne
    | vStr s => exact absurd (hv.symm.trans rfl) hne
    | vDate d => exact absurd (hv.symm.trans rfl) hne
    | vArr elems => exact absurd (hv.symm.trans rfl) hne
  · intro hle
    have hm : ¬ ((limit : Int) < (results.length : Int)) := by
      exact_mod_cast Nat.not_lt.mpr hle
    refine ⟨?_, ?_, ?_⟩ <;> simp [processCursorResults, hm]
  · intro h0 hpos
    subst h0
    have hm : ((0 : Int) < (results.length : Int)) := by exact_mod_cast hpos
    refine ⟨?_, ?_, ?_⟩ <;>
      simp [processCursorResults, hm, jsSlice0]

/-- Witness for C5: three rows, `limit = 2` — the third row is trimmed and
`nextCursor` is the stringified `id` of the second row. -/
theorem processCursorResults_spec_witness :
    ([JVal.vObj [("id", JVal.vStr "a")], JVal.vObj [("id", JVal.vStr "b")],
        JVal.vObj [("id", JVal.vStr "c")]] : List JVal).length = 2 + 1 ∧
    (processCursorResults
        [JVal.vObj [("id", JVal.vStr "a")], JVal.vObj [("id", JVal.vStr "b")],
         JVal.vObj [("id", JVal.vStr "c")]] (.int 2) "id").nextCursor =
      some (jsToString (JVal.vStr "b")) :=
  ⟨rfl,
   ((processCursorResults_spec
      [JVal.vObj [("id", JVal.vStr "a")], JVal.vObj [("id", JVal.vStr "b")],
       JVal.vObj [("id", JVal.vStr "c")]] 2 "id").1 rfl).2.2
     (JVal.vObj [("id", JVal.vStr "b")]) (JVal.vStr "b") rfl rfl (by simp)⟩

/-- C10: when the over-fetch detected a further page but the last retained
element has no (defined) cursor field, `nextCursor` is `null`, not the
string "undefined". -/
theorem processCursorResults_missing_cursor_field :
    ∀ (results : List JVal) (limit : Nat) (cf : String) (last : JVal),
      limit < results.length →
      (results.take limit).getLast? = some last →
      jsIndex last cf = JVal.vUndefined →
      (processCursorResults results (.int limit) cf).hasMore = true ∧
      (processCursorResults results (.int limit) cf).nextCursor = none := by
  intro results limit cf last hlt hlast hv
  have hm : ((limit : Int) < (results.length : Int)) := by exact_mod_cast hlt
  have hne' : results.take limit ≠ [] := by
    intro h
    rw [h] at hlast
    simp at hlast
  have hpos : 0 < (results.take limit).length := List.length_pos.mpr hne'
  refine ⟨by simp [processCursorResults, hm], ?_⟩
  rw [processCursorResults_nextCursor_of results limit cf hm hpos, hlast]
  by_cases ht : last.jsTruthy
  · simp only [ht, if_true, hv]
  · simp only [ht, if_false, Bool.false_eq_true]

/-- Witness for C10: two rows, `limit = 1`, the retained row lacks the `id`
field — `nextCursor` stays `null`. -/
theorem processCursorResults_missing_cursor_field_witness :
    (1 < ([JVal.vObj [("name", JVal.vStr "x")],
        JVal.vObj [("id", JVal.vStr "b")]] : List JVal).length) ∧
    (processCursorResults
        [JVal.vObj [("name", JVal.vStr "x")], JVal.vObj [("id", JVal.vStr "b")]]
        (.int 1) "id").hasMore = true ∧
    (processCursorResults
        [JVal.vObj [("name", JVal.vStr "x")], JVal.vObj [("id", JVal.vStr "b")]]
        (.int 1) "id").nextCursor = none :=
  ⟨by decide,
   (processCursorResults_missing_cursor_field
      [JVal.vObj [("name", JVal.vStr "x")], JVal.vObj [("id", JVal.vStr "b")]]
      1 "id" (JVal.vObj [("name", JVal.vStr "x")]) (by decide) rfl rfl).1,
   (processCursorResults_missing_cursor_field
      [JVal.vObj [("name", JVal.vStr "x")], JVal.vObj [("id", JVal.vStr "b")]]
      1 "id" (JVal.vObj [("name", JVal.vStr "x")]) (by decide) rfl rfl).2⟩

/-- The `OR` disjunction `buildSearchQuery` produces: one case-insensitive
contains-condition per field, the trimmed term's character case preserved. -/
def searchConditions (s : String) (fields : List String) : JVal :=
  JVal.vArr (fields.map (fun field =>
    JVal.vObj [(field, JVal.vObj
      [("contains", JVal.vStr (jsTrim s)),
       ("mode", JVal.vStr "insensitive")])]))

/-- C7: `buildSearchQuery` yields `undefined` exactly when the term is
missing, empty or whitespace-only or the field list is empty; otherwise it
returns `{OR: [...]}` with one `{[field]: {contains: trimmedTerm,
mode: "insensitive"}}` condition per field in order — the term is trimmed
but its case preserved, insensitivity being only the attached mode flag. -/
theorem buildSearchQuery_spec :
    ∀ (search : Option String) (fields : List String),
      buildSearchQuery none fields = none ∧
      (∀ s, jsTrim s = "" → buildSearchQuery (some s) fields = none) ∧
      (fields = [] → buildSearchQuery search fields = none) ∧
      (∀ s, jsTrim s ≠ "" → fields ≠ [] →
        buildSearchQuery (some s) fields =
          some [("OR", searchConditions s fields)]) := by
  intro search fields
  refine ⟨rfl, ?_, ?_, ?_⟩
  · intro s hs
    simp [buildSearchQuery, hs]
  · intro hf
    cases search with
    | none => rfl
    | some s => simp [buildSearchQuery, hf]
  · intro s hs hf
    have hs' : s ≠ "" := by
      intro h
      subst h
      exact hs rfl
    simp [buildSearchQuery, searchConditions, hs, hs', hf]

/-- Witness for C7 at term `"  john "` (trimmed to `"john"`) over two
fields. -/
theorem buildSearchQuery_spec_witness :
    (jsTrim "  john " ≠ "") ∧ (["email", "name"] : List String) ≠ [] ∧
    buildSearchQuery (some "  john ") ["email", "name"] =
      some [("OR", searchConditions "  john " ["email", "name"])] ∧
    buildSearchQuery (some "   ") ["email"] = none ∧
    buildSearchQuery (some "x") ([] : List String) = none :=
  ⟨by decide, by decide,
   (buildSearchQuery_spec (some "  john ") ["email", "name"]).2.2.2 "  john "
     (by decide) (by decide),
   (buildSearchQuery_spec (some "   ") ["email"]).2.1 "   " (by decide),
   (buildSearchQuery_spec (some "x") []).2.2.1 rfl⟩

/-- C8: `combineFiltersWithOr` discards keyless objects; with no survivors it
returns `undefined`, with exactly one survivor that object itself unwrapped,
and with two or more the disjunction `{OR: survivors}`. -/
theorem combineFiltersWithOr_spec :
    ∀ (objs : List Obj),
      (objs.filter (fun f => f.length > 0) = [] →
        combineFiltersWithOr objs = none) ∧
      (∀ o, objs.filter (fun f => f.length > 0) = [o] →
        combineFiltersWithOr objs = some o) ∧
      (2 ≤ (objs.filter (fun f => f.length > 0)).length →
        combineFiltersWithOr objs =
          some [("OR", JVal.vArr
            ((objs.filter (fun f => f.length > 0)).map JVal.vObj))]) := by
  intro objs
  refine ⟨?_, ?_, ?_⟩
  · intro h
    simp [combineFiltersWithOr, h]
  · intro o h
    simp [combineFiltersWithOr, h]
  · intro h
    cases hv : objs.filter (fun f => f.length > 0) with
    | nil => rw [hv] at h; simp at h
    | cons a t =>
      cases t with
      | nil => rw [hv] at h; simp at h
      | cons b t2 => simp [combineFiltersWithOr, hv]

/-- Witness for C8: `{}` is dropped and a single survivor is returned
unwrapped; two survivors are wrapped in an OR. -/
theorem combineFiltersWithOr_spec_witness :
    ([([] : Obj), [("a", JVal.vNum (.int 1))]].filter (fun f => f.length > 0) =
        [[("a", JVal.vNum (.int 1))]]) ∧
    combineFiltersWithOr [([] : Obj), [("a", JVal.vNum (.int 1))]] =
        some [("a", JVal.vNum (.int 1))] ∧
    (2 ≤ (([[("a", JVal.vNum (.int 1))], [("b", JVal.vNum (.int 2))]] :
        List Obj).filter (fun f => f.length > 0)).length) ∧
    combineFiltersWithOr [[("a", JVal.vNum (.int 1))], [("b", JVal.vNum (.int 2))]] =
      some [("OR", JVal.vArr
        ((([[("a", JVal.vNum (.int 1))], [("b", JVal.vNum (.int 2))]] :
          List Obj).filter (fun f => f.length > 0)).map JVal.vObj))] :=
  ⟨rfl,
   (combineFiltersWithOr_spec [([] : Obj), [("a", JVal.vNum (.int 1))]]).2.1
     [("a", JVal.vNum (.int 1))] rfl,
   by simp,
   (combineFiltersWithOr_spec
     [[("a", JVal.vNum (.int 1))], [("b", JVal.vNum (.int 2))]]).2.2 (by simp)⟩

/-- C6: on a filter map with unique keys, `buildFilters` is exactly the
claimed key-by-key dispatch (`claimedFilterDispatch`): skipped values leave
the key absent, and each present key maps to the dispatched condition. -/
theorem buildFilters_eq_claimed_dispatch :
    ∀ (filters : Obj) (k : String), (filters.map Prod.fst).Nodup →
      objGet (buildFilters filters) k =
        (objGet filters k).bind claimedFilterDispatch := by
  intro fs k h
  rw [buildFilters, buildFiltersAux_objGet fs [] k h]
  cases hg : objGet fs k with
  | none => rfl
  | some v =>
    cases hcd : claimedFilterDispatch v with
    | none => simp [hcd, objGet]
    | some r => simp [hcd]

/-- Witness for C6 on the spec's own examples: dropped empty-ish keys, a
numeric range, and an equality literal. -/
theorem buildFilters_eq_claimed_dispatch_witness :
    (([("a", JVal.vUndefined), ("b", JVal.vNull), ("c", JVal.vStr ""),
        ("d", JVal.vArr []),
        ("amount", JVal.vObj [("from", JVal.vNum (.int 10)),
                              ("to", JVal.vNum (.int 20))]),
        ("status", JVal.vStr "ACTIVE")] : Obj).map Prod.fst).Nodup ∧
    objGet (buildFilters
        [("a", JVal.vUndefined), ("b", JVal.vNull), ("c", JVal.vStr ""),
         ("d", JVal.vArr []),
         ("amount", JVal.vObj [("from", JVal.vNum (.int 10)),
                               ("to", JVal.vNum (.int 20))]),
         ("status", JVal.vStr "ACTIVE")]) "amount" =
      (objGet
        [("a", JVal.vUndefined), ("b", JVal.vNull), ("c", JVal.vStr ""),
         ("d", JVal.vArr []),
         ("amount", JVal.vObj [("from", JVal.vNum (.int 10)),
                               ("to", JVal.vNum (.int 20))]),
         ("status", JVal.vStr "ACTIVE")] "amount").bind claimedFilterDispatch :=
  ⟨by decide,
   buildFilters_eq_claimed_dispatch
     [("a", JVal.vUndefined), ("b", JVal.vNull), ("c", JVal.vStr ""),
      ("d", JVal.vArr []),
      ("amount", JVal.vObj [("from", JVal.vNum (.int 10)),
                            ("to", JVal.vNum (.int 20))]),
      ("status", JVal.vStr "ACTIVE")] "amount" (by decide)⟩

/-- C2: the `orderBy` handed to `findMany` by `cursorQueryBuilder` is the
compound list `[{[sortBy]: sortOrder}, {[cursorField]: sortOrder}]` whenever
the effective sort field differs from the cursor field, and the single
object `{[sortBy]: sortOrder}` when they coincide. -/
theorem cursorQueryBuilder_orderBy_spec :
    ∀ (ε : Type) (args : CursorQueryBuilderArgs ε),
      (cursorQueryBuilder args).2 =
        [PrismaCall.findMany (cursorQueryBuilderFindManyArgs ε args)] ∧
      objGet (cursorQueryBuilderFindManyArgs ε args) "orderBy" =
        some (if effectiveSortBy ε args = args.cursorField then
          JVal.vObj [(effectiveSortBy ε args, JVal.vStr args.sortOrder)]
        else
          JVal.vArr
            [JVal.vObj [(effectiveSortBy ε args, JVal.vStr args.sortOrder)],
             JVal.vObj [(args.cursorField, JVal.vStr args.sortOrder)]]) := by
  intro ε args
  refine ⟨rfl, ?_⟩
  have hob : objGet (cursorQueryBuilderFindManyArgs ε args) "orderBy" =
      some (cursorQueryBuilderOrderBy ε args) := by
    show objGet (combineFilters _) "orderBy" = _
    simp only [combineFilters, List.foldl]
    rw [objGet_jsSpread_not_mem _ _ (optEntry_keys "select" args.sel _ (by decide)),
      objGet_jsSpread_not_mem _ _ (optEntry_keys "include" args.inc _ (by decide)),
      objGet_jsSpread _ "orderBy" (by simp)]
    rw [objGet_jsSpread_not_mem _ _
      (getCursorPagination_keys args.cursor args.cursorField args.limit _
        (by decide) (by decide) (by decide))]
    simp [objGet]
  rw [hob]
  rfl

/-- C9: none of the orchestrators catches, wraps, retries or substitutes a
partial result — a rejection of the data-access operation each one invokes
(`findMany`, `count`, `aggregate`) settles the orchestrator's promise with
that same error; in particular a failed count fails the whole `queryBuilder`
call even when `findMany` succeeded. -/
theorem orchestrators_propagate_errors :
    ∀ (ε : Type) (e : ε)
      (qargs : QueryBuilderArgs ε) (cargs : CursorQueryBuilderArgs ε)
      (aargs : AdvancedQueryBuilderArgs ε) (nargs : CountQueryArgs ε)
      (gargs : AggregateQueryArgs ε),
      (qargs.model.findMany (queryBuilderFindManyArgs ε qargs) = .error e →
        (queryBuilder qargs).1 = .error e) ∧
      (∀ rows, qargs.model.findMany (queryBuilderFindManyArgs ε qargs) = .ok rows →
        qargs.model.count (queryBuilderCountArgs ε qargs) = .error e →
        (queryBuilder qargs).1 = .error e) ∧
      (cargs.model.findMany (cursorQueryBuilderFindManyArgs ε cargs) = .error e →
        (cursorQueryBuilder cargs).1 = .error e) ∧
      (aargs.model.findMany (advancedQueryBuilderFindManyArgs ε aargs) = .error e →
        (advancedQueryBuilder aargs).1 = .error e) ∧
      (∀ rows, aargs.model.findMany (advancedQueryBuilderFindManyArgs ε aargs) = .ok rows →
        aargs.model.count (advancedQueryBuilderCountArgs ε aargs) = .error e →
        (advancedQueryBuilder aargs).1 = .error e) ∧
      (nargs.model.count (countQueryArgs ε nargs) = .error e →
        (countQuery nargs).1 = .error e) ∧
      (gargs.model.aggregate (aggregateQueryArgs ε gargs) = .error e →
        (aggregateQuery gargs).1 = .error e) := by
  intro ε e qargs cargs aargs nargs gargs
  refine ⟨?_, ?_, ?_, ?_, ?_, ?_, ?_⟩
  · intro h
    simp [queryBuilder, h]
  · intro rows hok herr
    simp [queryBuilder, hok, herr]
  · intro h
    simp [cursorQueryBuilder, h]
  · intro h
    simp [advancedQueryBuilder, h]
  · intro rows hok herr
    simp [advancedQueryBuilder, hok, herr]
  · intro h
    simp [countQuery, h]
  · intro h
    simp [aggregateQuery, h]

/-- A data-access stub whose every operation rejects with `"boom"`. -/
def failingModel : PrismaModel String where
  findMany := fun _ => .error "boom"
  count := fun _ => .error "boom"
  aggregate := fun _ => .error "boom"

/-- A data-access stub whose list operation succeeds but whose count
rejects. -/
def countFailModel : PrismaModel String where
  findMany := fun _ => .ok []
  count := fun _ => .error "boom"
  aggregate := fun _ => .ok JVal.vNull

/-- Witness for C9: a rejecting `findMany` fails `queryBuilder`, a rejecting
`count` fails it even after a successful `findMany`, and `countQuery` and
`aggregateQuery` propagate their operations' rejections. -/
theorem orchestrators_propagate_errors_witness :
    (queryBuilder { model := failingModel }).1 = .error "boom" ∧
    (queryBuilder { model := countFailModel }).1 = .error "boom" ∧
    (cursorQueryBuilder { model := failingModel }).1 = .error "boom" ∧
    (countQuery { model := failingModel }).1 = .error "boom" ∧
    (aggregateQuery { model := failingModel }).1 = .error "boom" :=
  ⟨(orchestrators_propagate_errors String "boom" { model := failingModel }
      { model := failingModel } { model := failingModel }
      { model := failingModel } { model := failingModel }).1 rfl,
   (orchestrators_propagate_errors String "boom" { model := countFailModel }
      { model := failingModel } { model := failingModel }
      { model := failingModel } { model := failingModel }).2.1 [] rfl rfl,
   (orchestrators_propagate_errors String "boom" { model := failingModel }
      { model := failingModel } { model := failingModel }
      { model := failingModel } { model := failingModel }).2.2.1 rfl,
   (orchestrators_propagate_errors String "boom" { model := failingModel }
      { model := failingModel } { model := failingModel }
      { model := failingModel } { model := failingModel }).2.2.2.2.2.1 rfl,
   (orchestrators_propagate_errors String "boom" { model := failingModel }
      { model := failingModel } { model := failingModel }
      { model := failingModel } { model := failingModel }).2.2.2.2.2.2 rfl⟩

/-- A valid term and a non-empty field list make `buildSearchQuery` produce
its OR object. -/
theorem buildSearchQuery_pos {s : String} (fields : List String)
    (hs : jsTrim s ≠ "") (hf : fields ≠ []) :
    buildSearchQuery (some s) fields =
      some [("OR", searchConditions s fields)] := by
  have hs' : s ≠ "" := by
    intro h
    subst h
    exact hs rfl
  simp [buildSearchQuery, searchConditions, hs, hs', hf]

/-- Under a valid search and no relation filters, the combined `where` of
`queryBuilder` is the later-wins spread of the search fragment with the
filter fragment. -/
theorem queryBuilderWhere_eq (ε : Type) (args : QueryBuilderArgs ε)
    (s : String) (hsearch : args.search = some s) (hs : jsTrim s ≠ "")
    (hf : args.searchFields ≠ []) (hrel : args.relationFilters = []) :
    queryBuilderWhere ε args =
      jsSpread [("OR", searchConditions s args.searchFields)]
        (buildFilters args.filters) := by
  unfold queryBuilderWhere
  rw [hsearch, buildSearchQuery_pos args.searchFields hs hf, hrel]
  rfl

/-- `queryBuilder`'s `findMany` argument object carries the combined `where`
under its `where` key. -/
theorem queryBuilderFindManyArgs_where (ε : Type) (args : QueryBuilderArgs ε) :
    objGet (queryBuilderFindManyArgs ε args) "where" =
      some (JVal.vObj (queryBuilderWhere ε args)) := by
  show objGet (combineFilters _) "where" = _
  simp only [combineFilters, List.foldl]
  rw [objGet_jsSpread_not_mem _ _ (optEntry_keys "select" args.sel _ (by decide)),
    objGet_jsSpread_not_mem _ _ (optEntry_keys "include" args.inc _ (by decide)),
    jsSpread_nil_left (by simp)]
  simp [objGet]

/-- C1: for a `queryBuilder` call with a valid search term, non-empty
`searchFields` and a filters map (no relation filters, filter keys unique and
not colliding with `OR`), the combined `where` is the later-wins shallow
merge of the search fragment and the filter fragment — it contains the OR
search clause and every clause of the filter fragment; `findMany` and
`count` are each invoked exactly once with that same `where`; and on success
the envelope is `{data, meta: {total, page, limit, totalPages}}` with
`limit` the resolved (clamped) take and `totalPages` the exact ceiling of
`total / limit`. -/
theorem queryBuilder_merges_and_invokes_once :
    ∀ (ε : Type) (args : QueryBuilderArgs ε) (s : String),
      args.search = some s → jsTrim s ≠ "" → args.searchFields ≠ [] →
      args.relationFilters = [] →
      "OR" ∉ args.filters.map Prod.fst →
      (queryBuilderWhere ε args =
        jsSpread [("OR", searchConditions s args.searchFields)]
          (buildFilters args.filters)) ∧
      objGet (queryBuilderWhere ε args) "OR" =
        some (searchConditions s args.searchFields) ∧
      (∀ k v, objGet (buildFilters args.filters) k = some v →
        objGet (queryBuilderWhere ε args) k = some v) ∧
      (queryBuilder args).2 =
        [PrismaCall.findMany (queryBuilderFindManyArgs ε args),
         PrismaCall.count (queryBuilderCountArgs ε args)] ∧
      objGet (queryBuilderFindManyArgs ε args) "where" =
        some (JVal.vObj (queryBuilderWhere ε args)) ∧
      objGet (queryBuilderCountArgs ε args) "where" =
        some (JVal.vObj (queryBuilderWhere ε args)) ∧
      (∀ rows total,
        args.model.findMany (queryBuilderFindManyArgs ε args) = .ok rows →
        args.model.count (queryBuilderCountArgs ε args) = .ok total →
        ∃ resp, (queryBuilder args).1 = .ok resp ∧
          resp.data = rows ∧ resp.meta.total = total ∧
          resp.meta.page = args.page.getD (.int 1) ∧
          resp.meta.limit = (getPagination args.page args.limit).take ∧
          (∀ t : Int, (getPagination args.page args.limit).take = .int t →
            1 ≤ t ∧ ∃ tp : Nat, resp.meta.totalPages = .int tp ∧
              total ≤ tp * t.toNat ∧
              ∀ m : Nat, total ≤ m * t.toNat → tp ≤ m)) := by
  intro ε args s hsearch hs hf hrel hOR
  have hweq := queryBuilderWhere_eq ε args s hsearch hs hf hrel
  have hfq_nodup := buildFilters_nodup args.filters
  have hfq_OR : objGet (buildFilters args.filters) "OR" = none := by
    apply objGet_eq_none_of_not_mem
    intro hmem
    exact hOR (buildFilters_keys_subset args.filters _ hmem)
  refine ⟨hweq, ?_, ?_, rfl, queryBuilderFindManyArgs_where ε args, rfl, ?_⟩
  · rw [hweq, objGet_jsSpread _ _ hfq_nodup, hfq_OR]
    simp [objGet]
  · intro k v hk
    rw [hweq, objGet_jsSpread _ _ hfq_nodup, hk]
  · intro rows total hfm hcnt
    have hok : (queryBuilder args).1 = .ok
        { data := rows,
          meta := { total := total, page := args.page.getD (.int 1),
                    limit := (getPagination args.page args.limit).take,
                    totalPages :=
                      jsCeilDivNat total (getPagination args.page args.limit).take } } := by
      simp [queryBuilder, hfm, hcnt]
    refine ⟨_, hok, rfl, rfl, rfl, rfl, ?_⟩
    intro t ht
    have hb := getPagination_take_bounds args.page args.limit t ht
    refine ⟨hb.1, ?_⟩
    show ∃ tp : Nat, jsCeilDivNat total (getPagination args.page args.limit).take =
        .int tp ∧ _
    rw [ht]
    exact jsCeilDivNat_spec total t hb.1

/-- A concrete data-access stub with one user row. -/
def demoModel : PrismaModel String where
  findMany := fun _ => .ok [JVal.vObj [("id", JVal.vStr "u1")]]
  count := fun _ => .ok 1
  aggregate := fun _ => .ok JVal.vNull

/-- The spec's end-to-end example call: `search="john"`,
`searchFields=["email"]`, `filters={status:"ACTIVE"}`. -/
def demoArgs : QueryBuilderArgs String :=
  { model := demoModel, page := some (.int 2), limit := some (.int 10),
    search := some "john", searchFields := ["email"],
    filters := [("status", JVal.vStr "ACTIVE")] }

/-- Witness for C1 on the spec's end-to-end example. -/
theorem queryBuilder_merges_and_invokes_once_witness :
    jsTrim "john" ≠ "" ∧
    (queryBuilderWhere String demoArgs =
      jsSpread [("OR", searchConditions "john" ["email"])]
        (buildFilters [("status", JVal.vStr "ACTIVE")])) ∧
    objGet (queryBuilderWhere String demoArgs) "OR" =
      some (searchConditions "john" ["email"]) ∧
    (queryBuilder demoArgs).2 =
      [PrismaCall.findMany (queryBuilderFindManyArgs String demoArgs),
       PrismaCall.count (queryBuilderCountArgs String demoArgs)] :=
  have h := queryBuilder_merges_and_invokes_once String demoArgs "john" rfl
    (by decide) (by decide) rfl (by decide)
  ⟨by decide, h.1, h.2.1, h.2.2.2.1⟩
